import Mathlib

/-!
# OERsyncAI — verification of the course-structure converter and frontend helpers

This file gives a shallow embedding of the parts of the OERsyncAI repository
that the specification talks about:

* the Moodle activity-type mapping table (`activity_mapping`, quoted from
  `moodle_converter.py` in the repository's conversion-analysis document),
* the frontend activity icon/name tables and their fallback lookups
  (`CourseVisualizer`),
* the frontend job-status polling loop (`pollJobStatus` in the `useApiData`
  hook),
* the container-structure parser, item-group resolver and section
  categorizer of the ILIAS→Moodle converter.

The converter's Python modules (`container_parser.py`, `itemgroup_resolver.py`,
`section_categorizer.py`, `moodle_converter.py`) are not present in the
repository snapshot; only their design documents and summaries are.  Where a
definition embeds such a missing module it is marked `Modelled from the spec:`
and follows the specification's wording.
-/

/-! ## Backup Emitter: activity type mapping

The mapping table is quoted verbatim from `moodle_converter.py` (lines 366-381)
in the repository's conversion-analysis document. -/

/-- The fixed closed mapping table `activity_mapping` from `moodle_converter.py`:
ILIAS item type → Moodle activity type. -/
def activity_mapping : List (String × String) :=
  [("file", "resource"),
   ("documents", "resource"),
   ("presentations", "resource"),
   ("forum", "forum"),
   ("test", "quiz"),
   ("exercise", "assign"),
   ("wiki", "wiki"),
   ("mediacast", "resource"),
   ("itemgroup", "folder")]

/-- Modelled from the spec: the Backup Emitter's type-mapping operation
(the emitter module itself is missing from the snapshot; the spec says
"map each `item_type` to a target activity type via a fixed closed table
(unrecognized types map to a generic \"resource\" type rather than failing)").
The table is `activity_mapping` as quoted from the source. -/
def mapActivityType (t : String) : String :=
  (activity_mapping.lookup t).getD "resource"

/-! ## Frontend: CourseVisualizer icon and name tables -/

/-- The lucide-react icon components used by `CourseVisualizer`, as an
enumerated tag type. -/
inductive Icon where
  | messageSquare
  | barChart3
  | checkCircle
  | database
  | video
  | fileText
  | download
  | bookOpen
  | bookMarked
  | playCircle
  | users
  | penTool
  | extLink
  | graduationCap
  | info
  | file
  | layers
deriving DecidableEq

/-- The `activityIcons` table of `CourseVisualizer` (activity type → icon),
transcribed entry for entry from the source. -/
def activityIcons : List (String × Icon) :=
  [("forum", Icon.messageSquare),
   ("choice", Icon.barChart3),
   ("survey", Icon.checkCircle),
   ("data", Icon.database),
   ("bigbluebuttonbn", Icon.video),
   ("page", Icon.fileText),
   ("resource", Icon.download),
   ("book", Icon.bookOpen),
   ("glossary", Icon.bookMarked),
   ("h5pactivity", Icon.playCircle),
   ("quiz", Icon.checkCircle),
   ("wiki", Icon.users),
   ("assign", Icon.penTool),
   ("scorm", Icon.playCircle),
   ("workshop", Icon.users),
   ("url", Icon.extLink),
   ("lesson", Icon.graduationCap),
   ("feedback", Icon.messageSquare),
   ("label", Icon.info),
   ("folder", Icon.file),
   ("activity", Icon.layers)]

/-- The `activityNames` table of `CourseVisualizer` (activity type → German
display name), transcribed entry for entry from the source.  Note: unlike
`activityIcons` it has no `folder` entry. -/
def activityNames : List (String × String) :=
  [("forum", "Forum"),
   ("choice", "Abstimmung"),
   ("survey", "Umfrage"),
   ("data", "Datenbank"),
   ("bigbluebuttonbn", "BigBlueButton"),
   ("page", "Textseite"),
   ("resource", "Datei"),
   ("book", "Buch"),
   ("glossary", "Glossar"),
   ("h5pactivity", "H5P"),
   ("quiz", "Test"),
   ("wiki", "Wiki"),
   ("assign", "Aufgabe"),
   ("scorm", "Lernpaket"),
   ("workshop", "Gegenseitige Beurteilung"),
   ("url", "Link/URL"),
   ("lesson", "Lektion"),
   ("feedback", "Feedback"),
   ("label", "Textfeld"),
   ("activity", "Aktivität")]

/-- The property names a JavaScript object literal inherits from
`Object.prototype`: bracket access `obj[k]` on such an object consults the
prototype chain, so for these keys it yields a truthy inherited value
(a function, or `Object.prototype` itself for `__proto__`) even though the
literal has no such own entry. -/
def objectProtoKeys : List String :=
  ["constructor", "hasOwnProperty", "isPrototypeOf", "propertyIsEnumerable",
   "toLocaleString", "toString", "valueOf", "__proto__", "__defineGetter__",
   "__defineSetter__", "__lookupGetter__", "__lookupSetter__"]

/-- The value of a JavaScript bracket access `obj[t]` on an object literal:
an own entry of the literal, a truthy member inherited from
`Object.prototype`, or `undefined`. -/
inductive JsLookup (V : Type) where
  | own (v : V)
  | inherited (protoKey : String)
  | undef
deriving DecidableEq

/-- JavaScript bracket access on an object literal with own entries `obj`:
own properties shadow the prototype; otherwise `Object.prototype` members
are found; otherwise the access yields `undefined`. -/
def jsGet {V : Type} (obj : List (String × V)) (t : String) : JsLookup V :=
  match obj.lookup t with
  | some v => JsLookup.own v
  | none =>
      if objectProtoKeys.contains t then JsLookup.inherited t
      else JsLookup.undef

/-- What `CourseVisualizer` ends up rendering for the activity icon: a real
icon component, or a crash — an inherited `Object.prototype` member is
truthy, bypasses the `||` fallback, and is not a valid React component. -/
inductive RenderedIcon where
  | icon (i : Icon)
  | crash (protoKey : String)
deriving DecidableEq

/-- What `CourseVisualizer` ends up rendering for the activity type name: a
string, or a truthy inherited `Object.prototype` member that bypassed the
`||` fallback (not a string, so not the claimed German name). -/
inductive RenderedName where
  | name (s : String)
  | protoValue (protoKey : String)
deriving DecidableEq

/-- The icon lookup `activityIcons[activity.type] || activityIcons.activity`
performed by `CourseVisualizer` when rendering an activity row, with the
bracket access modelled by `jsGet` (prototype chain included): `||` takes
the left operand whenever it is truthy, which includes every inherited
`Object.prototype` member. -/
def iconFor (t : String) : RenderedIcon :=
  match jsGet activityIcons t with
  | JsLookup.own i => RenderedIcon.icon i
  | JsLookup.inherited k => RenderedIcon.crash k
  | JsLookup.undef =>
      RenderedIcon.icon ((activityIcons.lookup "activity").getD Icon.layers)

/-- The name lookup `activityNames[activity.type] || activityNames.activity`
performed by `CourseVisualizer` when rendering an activity row, with the
bracket access modelled by `jsGet` (prototype chain included). -/
def nameFor (t : String) : RenderedName :=
  match jsGet activityNames t with
  | JsLookup.own n => RenderedName.name n
  | JsLookup.inherited k => RenderedName.protoValue k
  | JsLookup.undef =>
      RenderedName.name ((activityNames.lookup "activity").getD "Aktivität")

/-! ## Frontend: job status polling (`pollJobStatus` in `useApiData`) -/

/-- Outcome of one `fetch` of the job-status endpoint inside `pollJobStatus`:
either a parsed JSON body (its `status` string and optional `error` string),
or an exception caught by the surrounding try/catch. -/
inductive FetchOutcome where
  | json (status : String) (error : Option String)
  | thrown
deriving DecidableEq

/-- Which callback `pollJobStatus` ends up invoking: `onComplete`, or
`onError` with the message it was passed (`none` models passing JavaScript
`undefined`). -/
inductive CallbackCall where
  | complete
  | errorCall (msg : Option String)
deriving DecidableEq

/-- The observable result of one run of `pollJobStatus`: how many status
checks (fetches) it performed, the final hook `status`, the final hook
`error`, and the callback it invoked. -/
structure PollResult where
  checks : Nat
  hookStatus : String
  hookError : Option String
  callback : CallbackCall
deriving DecidableEq

/-- The inner `check` function of `pollJobStatus` (`useApiData.js`).
`resp k` is the outcome of the fetch performed when the `attempts` counter
holds `k`; the source increments `attempts` and reschedules via
`setTimeout(check, 1000)` while `attempts < maxAttempts`. -/
def pollCheck (resp : Nat → FetchOutcome) (maxAttempts : Nat) (attempts : Nat) :
    PollResult :=
  match resp attempts with
  | FetchOutcome.thrown =>
      ⟨1, "error", some "Fehler beim Statuscheck",
        CallbackCall.errorCall (some "Fehler beim Statuscheck")⟩
  | FetchOutcome.json st err =>
      if st = "completed" then
        ⟨1, "success", none, CallbackCall.complete⟩
      else if st = "failed" then
        ⟨1, "error", some (err.getD "Unbekannter Fehler"), CallbackCall.errorCall err⟩
      else if _h : attempts + 1 < maxAttempts then
        let r := pollCheck resp maxAttempts (attempts + 1)
        ⟨r.checks + 1, r.hookStatus, r.hookError, r.callback⟩
      else
        ⟨1, "error", some "Timeout erreicht. Bitte versuchen Sie es erneut.",
          CallbackCall.errorCall (some "Timeout erreicht")⟩
termination_by maxAttempts - attempts

/-- `pollJobStatus(jobId, onComplete, onError)`: `attempts` starts at `0`,
`maxAttempts` is `60`, and `check()` is called once immediately. -/
def pollJobStatus (resp : Nat → FetchOutcome) : PollResult :=
  pollCheck resp 60 0

/-! ## Helper lemmas on association-list lookup -/

/-- A successful `List.lookup` witnesses membership of the key/value pair. -/
lemma lookup_mem {β : Type} : ∀ {l : List (String × β)} {t : String} {m : β},
    l.lookup t = some m → (t, m) ∈ l := by
  intro l
  induction l with
  | nil => intro t m h; simp [List.lookup] at h
  | cons p rest ih =>
    intro t m h
    rw [List.lookup] at h
    cases hb : (t == p.1) with
    | false =>
      simp only [hb] at h
      exact List.mem_cons_of_mem _ (ih h)
    | true =>
      simp only [hb] at h
      have hpt : t = p.1 := eq_of_beq hb
      cases h
      subst hpt
      exact List.mem_cons_self _ _

/-! ## Theorems -/

/-- **C5.** Every resolved item's `item_type` is mapped to a Moodle activity
type through the fixed closed table `activity_mapping`; every type present in
the table maps to its table entry, every type absent from the table maps to
the generic `"resource"` type, and the mapping is total (each result is
either a table entry or `"resource"`), so it never fails. -/
theorem mapActivityType_closed_table :
    (∀ t m, (t, m) ∈ activity_mapping → mapActivityType t = m)
    ∧ (∀ t, activity_mapping.lookup t = none → mapActivityType t = "resource")
    ∧ (∀ t, (t, mapActivityType t) ∈ activity_mapping ∨ mapActivityType t = "resource") := by
  refine ⟨?_, ?_, ?_⟩
  · intro t m h
    fin_cases h <;> rfl
  · intro t h
    unfold mapActivityType
    rw [h]
    rfl
  · intro t
    unfold mapActivityType
    cases hl : activity_mapping.lookup t with
    | none => right; rfl
    | some m => left; exact lookup_mem hl

/-- Witness for C5: the mapping evaluated at a table entry and at an
unrecognized type. -/
theorem mapActivityType_closed_table_witness :
    mapActivityType "test" = "quiz"
    ∧ mapActivityType "lernmodul" = "resource"
    ∧ ((("wiki" : String), mapActivityType "wiki") ∈ activity_mapping
        ∨ mapActivityType "wiki" = "resource") :=
  ⟨mapActivityType_closed_table.1 "test" "quiz" (by decide),
   mapActivityType_closed_table.2.1 "lernmodul" (by decide),
   mapActivityType_closed_table.2.2 "wiki"⟩

/-- **C10 (counterexample).** The claim as stated — every type string
absent from `activityIcons` and `activityNames` renders with the generic
fallback (Layers icon, "Aktivität"), and the lookups never fail — is false
at the concrete type string `"constructor"`: it is an own entry of neither
table, yet JavaScript bracket access finds the inherited truthy
`Object.prototype.constructor`, the `||` fallback is bypassed, and
rendering crashes instead of using the fallback entry. -/
theorem courseVisualizer_fallback_counterexample :
    activityIcons.lookup "constructor" = none
    ∧ activityNames.lookup "constructor" = none
    ∧ iconFor "constructor" ≠ RenderedIcon.icon Icon.layers
    ∧ nameFor "constructor" ≠ RenderedName.name "Aktivität"
    ∧ iconFor "constructor" = RenderedIcon.crash "constructor"
    ∧ nameFor "constructor" = RenderedName.protoValue "constructor" := by
  decide

/-- **C10 (amended).** For every activity type string that is an own entry
of neither table *and not a property name of `Object.prototype`*,
`CourseVisualizer` falls back to the generic `activity` entry — the
`Layers` icon and the German name "Aktivität" — and rendering succeeds;
but for an `Object.prototype` property name absent from the tables the
truthy inherited value bypasses the `||` fallback and rendering fails. -/
theorem courseVisualizer_prototype_fallback :
    (∀ t, activityIcons.lookup t = none → objectProtoKeys.contains t = false →
        iconFor t = RenderedIcon.icon Icon.layers)
    ∧ (∀ t, activityNames.lookup t = none → objectProtoKeys.contains t = false →
        nameFor t = RenderedName.name "Aktivität")
    ∧ (∀ t, activityIcons.lookup t = none → objectProtoKeys.contains t = true →
        iconFor t = RenderedIcon.crash t)
    ∧ (∀ t, activityNames.lookup t = none → objectProtoKeys.contains t = true →
        nameFor t = RenderedName.protoValue t) := by
  refine ⟨?_, ?_, ?_, ?_⟩
  · intro t h1 h2
    unfold iconFor jsGet
    rw [h1]
    simp only [h2]
    rfl
  · intro t h1 h2
    unfold nameFor jsGet
    rw [h1]
    simp only [h2]
    rfl
  · intro t h1 h2
    unfold iconFor jsGet
    rw [h1]
    simp only [h2]
    rfl
  · intro t h1 h2
    unfold nameFor jsGet
    rw [h1]
    simp only [h2]
    rfl

/-- Witness for amended C10: `"lernmodul"` (in neither table, not a
prototype key) renders with the generic fallback icon and name, while
`"toString"` (in neither table, but inherited) crashes both lookups. -/
theorem courseVisualizer_prototype_fallback_witness :
    iconFor "lernmodul" = RenderedIcon.icon Icon.layers
    ∧ nameFor "lernmodul" = RenderedName.name "Aktivität"
    ∧ iconFor "toString" = RenderedIcon.crash "toString"
    ∧ nameFor "toString" = RenderedName.protoValue "toString" :=
  ⟨courseVisualizer_prototype_fallback.1 "lernmodul" (by decide) (by decide),
   courseVisualizer_prototype_fallback.2.1 "lernmodul" (by decide) (by decide),
   courseVisualizer_prototype_fallback.2.2.1 "toString" (by decide) (by decide),
   courseVisualizer_prototype_fallback.2.2.2 "toString" (by decide) (by decide)⟩

/-- When every status response is a JSON body that is neither `completed` nor
`failed`, `pollCheck` performs exactly `maxAttempts - attempts` checks and
ends with the timeout error. -/
lemma pollCheck_timeout (resp : Nat → FetchOutcome)
    (h : ∀ k, ∃ st err, resp k = FetchOutcome.json st err
          ∧ st ≠ "completed" ∧ st ≠ "failed")
    (maxA : Nat) :
    ∀ n attempts, attempts < maxA → maxA - attempts ≤ n →
      pollCheck resp maxA attempts =
        ⟨maxA - attempts, "error",
          some "Timeout erreicht. Bitte versuchen Sie es erneut.",
          CallbackCall.errorCall (some "Timeout erreicht")⟩ := by
  intro n
  induction n with
  | zero => intro attempts h1 h2; omega
  | succ n ih =>
    intro attempts hlt hle
    rw [pollCheck]
    obtain ⟨st, err, hresp, hc, hf⟩ := h attempts
    simp only [hresp, if_neg hc, if_neg hf]
    by_cases hA : attempts + 1 < maxA
    · rw [dif_pos hA]
      have hrec := ih (attempts + 1) hA (by omega)
      simp only [hrec]
      have harith : maxA - (attempts + 1) + 1 = maxA - attempts := by omega
      rw [harith]
    · rw [dif_neg hA]
      have harith : maxA - attempts = 1 := by omega
      rw [harith]

/-- Whatever the status responses are, `pollCheck` never performs more than
`maxAttempts - attempts` checks. -/
lemma pollCheck_checks_le (resp : Nat → FetchOutcome) (maxA : Nat) :
    ∀ n attempts, attempts < maxA → maxA - attempts ≤ n →
      (pollCheck resp maxA attempts).checks ≤ maxA - attempts := by
  intro n
  induction n with
  | zero => intro attempts h1 h2; omega
  | succ n ih =>
    intro attempts hlt hle
    rw [pollCheck]
    cases hr : resp attempts with
    | thrown => simp; omega
    | json st err =>
      simp only
      split
      · simp; omega
      · split
        · simp; omega
        · split
          · rename_i hA
            have hrec := ih (attempts + 1) hA (by omega)
            simp only [PollResult.checks]
            omega
          · simp; omega

/-- **C9.** For a job whose status endpoint never reports `completed` or
`failed`, `pollJobStatus` performs exactly 60 status checks and then stops,
setting the hook status to `error` with the timeout message and invoking
`onError` with "Timeout erreicht"; and for arbitrary responses it never
performs more than 60 checks, so polling never continues indefinitely. -/
theorem pollJobStatus_bounded :
    (∀ resp, (∀ k, ∃ st err, resp k = FetchOutcome.json st err
          ∧ st ≠ "completed" ∧ st ≠ "failed") →
      pollJobStatus resp =
        ⟨60, "error", some "Timeout erreicht. Bitte versuchen Sie es erneut.",
          CallbackCall.errorCall (some "Timeout erreicht")⟩)
    ∧ (∀ resp, (pollJobStatus resp).checks ≤ 60) := by
  constructor
  · intro resp h
    have h60 := pollCheck_timeout resp h 60 60 0 (by omega) (by omega)
    simpa [pollJobStatus] using h60
  · intro resp
    have h60 := pollCheck_checks_le resp 60 60 0 (by omega) (by omega)
    simpa [pollJobStatus] using h60

/-- Witness for C9: a status endpoint that always answers `processing` makes
`pollJobStatus` stop after exactly 60 checks with the timeout error. -/
theorem pollJobStatus_bounded_witness :
    pollJobStatus (fun _ => FetchOutcome.json "processing" none) =
      ⟨60, "error", some "Timeout erreicht. Bitte versuchen Sie es erneut.",
        CallbackCall.errorCall (some "Timeout erreicht")⟩
    ∧ (pollJobStatus (fun _ => FetchOutcome.json "processing" none)).checks ≤ 60 :=
  ⟨pollJobStatus_bounded.1 _
      (fun _ => ⟨"processing", none, rfl, by decide, by decide⟩),
   pollJobStatus_bounded.2 _⟩

/-! ## Converter data model

Modelled from the spec's §3 data model; the converter's Python modules are
missing from the snapshot (only `container_parser.py` / `itemgroup_resolver.py`
design summaries exist), so the definitions below follow the specification's
wording.  The source calls `content_id` "item_id" and `by_content_id`
"item_by_item_id".  -/

/-- An optional start/end visibility window on a container node. -/
structure Timing where
  start : Option String
  stop : Option String
deriving DecidableEq

/-- Modelled from the spec: one node of the container tree (`ContainerItem`
in `container_parser.py`, missing from the snapshot): structural `ref_id`,
optional stable `content_id`, title, item type, optional timing window, and
the ordered child list exactly as encountered in the source manifest. -/
inductive ContainerItem where
  | node (ref_id : String) (content_id : Option String) (title : String)
      (item_type : String) (timing : Option Timing)
      (children : List ContainerItem)

/-- A flattened reference to a container node, as stored in the two lookup
indices (a non-owning view: the tree owns the nodes). -/
structure ContainerNode where
  ref_id : String
  content_id : Option String
  title : String
  item_type : String
  timing : Option Timing
deriving DecidableEq

/-- Modelled from the spec: the parsed container tree plus the two lookup
indices `by_ref_id` and `by_content_id` (`ContainerStructure` in
`container_parser.py`, missing from the snapshot). -/
structure ContainerStructure where
  root_item : ContainerItem
  by_ref_id : List (String × ContainerNode)
  by_content_id : List (String × ContainerNode)

/-- Modelled from the spec: one parsed source component (`ComponentRecord`),
owned by the Component Catalog. -/
structure ComponentRecord where
  content_id : String
  title : String
  component_type : String
  type_specific_payload : List (String × String)
  source_path : String
deriving DecidableEq

/-- Catalog lookup of a component by its stable content id. -/
def catalogLookup (cat : List ComponentRecord) (c : String) :
    Option ComponentRecord :=
  cat.find? (fun r => r.content_id == c)

/-- One member entry of an item-group: the referenced content id and the
optional denormalized inline title/type hints some export variants embed. -/
structure ItemGroupMember where
  content_id : String
  inline_title : Option String
  inline_type : Option String
deriving DecidableEq

/-- Modelled from the spec: an item-group — an indirection node whose content
is an ordered list of member references. -/
structure ItemGroup where
  title : String
  members : List ItemGroupMember
deriving DecidableEq

/-- Which resolution strategy produced a `ResolvedItem`. -/
inductive ResolutionSource where
  | containerLookup
  | catalogLookup
  | inlineMetadata
  | fallbackStub
deriving DecidableEq

/-- Modelled from the spec: the outcome of resolving one item-group member
(`ResolvedItem` in `itemgroup_resolver.py`, missing from the snapshot). -/
structure ResolvedItem where
  content_id : String
  ref_id : Option String
  title : String
  item_type : String
  resolution_source : ResolutionSource
  metadata : List (String × String)
deriving DecidableEq

/-! ## ItemGroup Resolver -/

/-- Modelled from the spec: resolution of one member (§4.2, the layered
strategies of the missing `itemgroup_resolver.py`): container lookup first
(carries `ref_id`), else catalog lookup, else the member's inline
title/type hints, else a synthesized stub
(`title = "Item " + content_id`, `item_type = "unknown"`). -/
def resolveMember (cs : ContainerStructure) (cat : List ComponentRecord)
    (m : ItemGroupMember) : ResolvedItem :=
  match cs.by_content_id.lookup m.content_id with
  | some node =>
      ⟨m.content_id, some node.ref_id, node.title, node.item_type,
        ResolutionSource.containerLookup, []⟩
  | none =>
      match catalogLookup cat m.content_id with
      | some r =>
          ⟨m.content_id, none, r.title, r.component_type,
            ResolutionSource.catalogLookup, r.type_specific_payload⟩
      | none =>
          if m.inline_title.isSome || m.inline_type.isSome then
            ⟨m.content_id, none, m.inline_title.getD ("Item " ++ m.content_id),
              m.inline_type.getD "unknown", ResolutionSource.inlineMetadata, []⟩
          else
            ⟨m.content_id, none, "Item " ++ m.content_id, "unknown",
              ResolutionSource.fallbackStub, []⟩

/-- Modelled from the spec: resolving an item-group — members with an
empty/malformed content id are skipped (logged), every remaining member is
resolved in input order. -/
def resolveItemGroup (cs : ContainerStructure) (cat : List ComponentRecord)
    (g : ItemGroup) : List ResolvedItem :=
  (g.members.filter (fun m => m.content_id != "")).map (resolveMember cs cat)

/-- Resolution never changes the member's content id, whichever strategy
fires. -/
lemma resolveMember_content_id (cs : ContainerStructure)
    (cat : List ComponentRecord) (m : ItemGroupMember) :
    (resolveMember cs cat m).content_id = m.content_id := by
  unfold resolveMember
  split
  · rfl
  · split
    · rfl
    · split <;> rfl

/-! Concrete fixtures used by witnesses (ids taken from the repository's
example course structure). -/

/-- A one-node container tree fixture. -/
def sampleTree : ContainerItem :=
  ContainerItem.node "3812" (some "9094") "Vorlage" "grp" none []

/-- A container node fixture (the "Test" item of the example course). -/
def sampleNode : ContainerNode :=
  ⟨"3845", some "9151", "Test", "tst", none⟩

/-- A container structure fixture with one indexed node. -/
def sampleCS : ContainerStructure :=
  ⟨sampleTree, [("3845", sampleNode)], [("9151", sampleNode)]⟩

/-- A container structure with a different tree and `by_ref_id` index but the
same `by_content_id` index as `sampleCS`. -/
def sampleCS2 : ContainerStructure :=
  ⟨ContainerItem.node "x" none "other" "fold" none [], [],
    [("9151", sampleNode)]⟩

/-- The "Video" item-group of spec Scenario A. -/
def videoGroup : ItemGroup :=
  ⟨"Video", [⟨"7", none, none⟩, ⟨"8", none, none⟩]⟩

/-- **C1.** For every item-group whose members all carry well-formed
(non-empty) content ids, the resolver returns exactly one `ResolvedItem` per
member, in the same order as the input member list — for every container
structure and catalog, hence no matter which of the four lookup strategies
succeeds for each member. -/
theorem resolveItemGroup_total (cs : ContainerStructure)
    (cat : List ComponentRecord) (g : ItemGroup)
    (h : ∀ m ∈ g.members, m.content_id ≠ "") :
    (resolveItemGroup cs cat g).length = g.members.length
    ∧ (resolveItemGroup cs cat g).map ResolvedItem.content_id
        = g.members.map ItemGroupMember.content_id := by
  have hf : g.members.filter (fun m => m.content_id != "") = g.members := by
    rw [List.filter_eq_self]
    intro m hm
    simpa [bne_iff_ne] using h m hm
  unfold resolveItemGroup
  rw [hf]
  constructor
  · simp
  · rw [List.map_map]
    exact List.map_congr_left fun m _ => resolveMember_content_id cs cat m

/-- Witness for C1: resolving the two-member "Video" group of Scenario A
yields two items in order [7, 8]. -/
theorem resolveItemGroup_total_witness :
    (resolveItemGroup sampleCS [] videoGroup).length
        = videoGroup.members.length
    ∧ (resolveItemGroup sampleCS [] videoGroup).map ResolvedItem.content_id
        = videoGroup.members.map ItemGroupMember.content_id :=
  resolveItemGroup_total sampleCS [] videoGroup (by decide)

/-- **C6.** A member whose content id is found neither in
`by_content_id`, nor in the catalog, nor in its own inline metadata resolves
to a stub with `title = "Item " ++ content_id`, `item_type = "unknown"` and
`resolution_source = fallback-stub`; the member is never dropped from its
group's output. -/
theorem resolveMember_fallback_stub (cs : ContainerStructure)
    (cat : List ComponentRecord) (m : ItemGroupMember) (g : ItemGroup)
    (h1 : cs.by_content_id.lookup m.content_id = none)
    (h2 : catalogLookup cat m.content_id = none)
    (h3 : m.inline_title = none) (h4 : m.inline_type = none)
    (h5 : m ∈ g.members) (h6 : m.content_id ≠ "") :
    resolveMember cs cat m =
      ⟨m.content_id, none, "Item " ++ m.content_id, "unknown",
        ResolutionSource.fallbackStub, []⟩
    ∧ resolveMember cs cat m ∈ resolveItemGroup cs cat g := by
  constructor
  · unfold resolveMember
    simp [h1, h2, h3, h4]
  · unfold resolveItemGroup
    exact List.mem_map_of_mem _
      (List.mem_filter.mpr ⟨h5, by simpa [bne_iff_ne] using h6⟩)

/-- Witness for C6: a member id matching nothing anywhere yields the labeled
stub and still appears in the group's resolution. -/
theorem resolveMember_fallback_stub_witness :
    resolveMember sampleCS [] ⟨"405808", none, none⟩ =
      ⟨"405808", none, "Item " ++ "405808", "unknown",
        ResolutionSource.fallbackStub, []⟩
    ∧ resolveMember sampleCS [] ⟨"405808", none, none⟩ ∈
        resolveItemGroup sampleCS [] ⟨"Orphan", [⟨"405808", none, none⟩]⟩ :=
  resolveMember_fallback_stub sampleCS [] ⟨"405808", none, none⟩
    ⟨"Orphan", [⟨"405808", none, none⟩]⟩ rfl rfl rfl rfl
    (by decide) (by decide)

/-- **C8.** The resolver is a pure function of its three inputs: its output
depends only on the item-group, the `by_content_id` index it can observe in
the container structure, and the catalog lookups.  Two runs over structures
and catalogs with equal observable lookups — whatever else differs — give
equal ordered outputs; no input is mutated (the embedding is pure). -/
theorem resolveItemGroup_deterministic (cs1 cs2 : ContainerStructure)
    (cat1 cat2 : List ComponentRecord)
    (hcs : ∀ c, cs1.by_content_id.lookup c = cs2.by_content_id.lookup c)
    (hcat : ∀ c, catalogLookup cat1 c = catalogLookup cat2 c) :
    ∀ g, resolveItemGroup cs1 cat1 g = resolveItemGroup cs2 cat2 g := by
  intro g
  unfold resolveItemGroup
  exact List.map_congr_left fun m _ => by
    unfold resolveMember
    rw [hcs m.content_id, hcat m.content_id]

/-- Witness for C8: two container structures with different trees and
`by_ref_id` indices but the same `by_content_id` resolve a group
identically. -/
theorem resolveItemGroup_deterministic_witness :
    resolveItemGroup sampleCS [] ⟨"G", [⟨"9151", none, none⟩]⟩ =
      resolveItemGroup sampleCS2 [] ⟨"G", [⟨"9151", none, none⟩]⟩ :=
  resolveItemGroup_deterministic sampleCS sampleCS2 [] []
    (fun _ => rfl) (fun _ => rfl) _

/-! ## Container Structure Parser -/

/-- The fatal parse errors of the Container Structure Parser (spec §7 error
taxonomy): structural corruption carries the offending duplicate `ref_id`. -/
inductive ParseError where
  | structuralCorruption (ref_id : String)
deriving DecidableEq

/-- The flattened view of one tree node, used when indexing. -/
def ContainerItem.info : ContainerItem → ContainerNode
  | ContainerItem.node r c t ty tm _ => ⟨r, c, t, ty, tm⟩

mutual

/-- Document-order (preorder) traversal of a container tree: a node, then
its children in manifest order, recursively. -/
def ContainerItem.preorder : ContainerItem → List ContainerNode
  | ContainerItem.node r c t ty tm ch => ⟨r, c, t, ty, tm⟩ :: preorderList ch

/-- Preorder traversal of a child list, preserving manifest order. -/
def preorderList : List ContainerItem → List ContainerNode
  | [] => []
  | x :: xs => x.preorder ++ preorderList xs

end

/-- The `ref_id`s of a container tree in document order. -/
def refIds (root : ContainerItem) : List String :=
  root.preorder.map ContainerNode.ref_id

/-- The two indices accumulated while the parser walks the tree. -/
structure Indices where
  by_ref_id : List (String × ContainerNode)
  by_content_id : List (String × ContainerNode)
deriving DecidableEq

/-- Modelled from the spec: indexing one node while building the tree
(`container_parser.py` is missing from the snapshot).  A `ref_id` collision
is a hard parse error — structural corruption, never a silent overwrite; a
`content_id` collision is tolerated, first occurrence wins. -/
def insertNode (acc : Indices) (n : ContainerNode) : Except ParseError Indices :=
  if (acc.by_ref_id.lookup n.ref_id).isSome then
    Except.error (ParseError.structuralCorruption n.ref_id)
  else
    Except.ok
      ⟨acc.by_ref_id ++ [(n.ref_id, n)],
        match n.content_id with
        | none => acc.by_content_id
        | some c =>
            if (acc.by_content_id.lookup c).isSome then acc.by_content_id
            else acc.by_content_id ++ [(c, n)]⟩

/-- Fold `insertNode` over the nodes in document order, stopping at the
first fatal error. -/
def buildIndices (acc : Indices) : List ContainerNode → Except ParseError Indices
  | [] => Except.ok acc
  | n :: rest =>
      match insertNode acc n with
      | Except.error e => Except.error e
      | Except.ok acc2 => buildIndices acc2 rest

/-- Modelled from the spec: the Container Structure Parser — walk the
manifest tree in document order, simultaneously populating `by_ref_id` and
`by_content_id`, and either return the `ContainerStructure` or fail with a
diagnosable parse error. -/
def parseContainer (root : ContainerItem) : Except ParseError ContainerStructure :=
  match buildIndices ⟨[], []⟩ root.preorder with
  | Except.error e => Except.error e
  | Except.ok idx => Except.ok ⟨root, idx.by_ref_id, idx.by_content_id⟩

/-- `List.lookup` on string-keyed pairs is `isSome` exactly when the key
occurs among the stored keys. -/
lemma lookup_isSome_iff {β : Type} : ∀ {l : List (String × β)} {k : String},
    (l.lookup k).isSome = true ↔ k ∈ l.map Prod.fst := by
  intro l
  induction l with
  | nil => intro k; simp [List.lookup]
  | cons p rest ih =>
    intro k
    rw [List.lookup]
    cases hb : (k == p.1) with
    | false =>
      have hne : k ≠ p.1 := by
        intro hk
        rw [hk] at hb
        simp at hb
      simp [hne, ih]
    | true =>
      have hk : k = p.1 := eq_of_beq hb
      simp [hk]

/-- `List.lookup` distributes over append: the left list is consulted
first. -/
lemma lookup_append {β : Type} : ∀ (l1 l2 : List (String × β)) (k : String),
    (l1 ++ l2).lookup k =
      match l1.lookup k with
      | some v => some v
      | none => l2.lookup k := by
  intro l1
  induction l1 with
  | nil => intro l2 k; simp [List.lookup]
  | cons p rest ih =>
    intro l2 k
    rw [List.cons_append, List.lookup, List.lookup]
    cases hb : (k == p.1) with
    | false => simp only; exact ih l2 k
    | true => simp only

/-- A successful `insertNode` appends the node to the `by_ref_id` index. -/
lemma insertNode_ok_of_fresh (acc : Indices) (n : ContainerNode)
    (h : ¬ (acc.by_ref_id.lookup n.ref_id).isSome = true) :
    insertNode acc n = Except.ok
      ⟨acc.by_ref_id ++ [(n.ref_id, n)],
        match n.content_id with
        | none => acc.by_content_id
        | some c =>
            if (acc.by_content_id.lookup c).isSome then acc.by_content_id
            else acc.by_content_id ++ [(c, n)]⟩ := by
  unfold insertNode
  rw [if_neg h]

/-- If no `ref_id` occurs twice across the already-indexed keys and the
remaining document-order node list, index building succeeds. -/
lemma buildIndices_ok : ∀ (l : List ContainerNode) (acc : Indices),
    (acc.by_ref_id.map Prod.fst ++ l.map ContainerNode.ref_id).Nodup →
    ∃ idx, buildIndices acc l = Except.ok idx := by
  intro l
  induction l with
  | nil => intro acc _; exact ⟨acc, rfl⟩
  | cons n rest ih =>
    intro acc h
    have hmem : n.ref_id ∉ acc.by_ref_id.map Prod.fst := by
      intro hin
      obtain ⟨-, -, hdisj⟩ := List.nodup_append.mp h
      exact hdisj hin (by simp)
    have hlook : ¬ (acc.by_ref_id.lookup n.ref_id).isSome = true := by
      intro hs
      exact hmem (lookup_isSome_iff.mp hs)
    rw [buildIndices, insertNode_ok_of_fresh acc n hlook]
    apply ih
    show (List.map Prod.fst (acc.by_ref_id ++ [(n.ref_id, n)])
        ++ List.map ContainerNode.ref_id rest).Nodup
    have hmapeq : List.map Prod.fst (acc.by_ref_id ++ [(n.ref_id, n)])
          ++ List.map ContainerNode.ref_id rest
        = acc.by_ref_id.map Prod.fst
          ++ List.map ContainerNode.ref_id (n :: rest) := by
      simp
    rw [hmapeq]
    exact h

/-- If some `ref_id` occurs twice across the already-indexed keys and the
remaining document-order node list (while the already-indexed keys are
themselves duplicate-free), index building fails with a
`StructuralCorruption` error carrying a `ref_id` that indeed occurs at
least twice. -/
lemma buildIndices_dup : ∀ (l : List ContainerNode) (acc : Indices),
    ¬ (acc.by_ref_id.map Prod.fst ++ l.map ContainerNode.ref_id).Nodup →
    (acc.by_ref_id.map Prod.fst).Nodup →
    ∃ r, buildIndices acc l = Except.error (ParseError.structuralCorruption r)
      ∧ 2 ≤ (acc.by_ref_id.map Prod.fst
              ++ l.map ContainerNode.ref_id).count r := by
  intro l
  induction l with
  | nil => intro acc h hacc; simp at h; exact absurd hacc h
  | cons n rest ih =>
    intro acc h hacc
    by_cases hmem : n.ref_id ∈ acc.by_ref_id.map Prod.fst
    · have hlook : (acc.by_ref_id.lookup n.ref_id).isSome = true :=
        lookup_isSome_iff.mpr hmem
      refine ⟨n.ref_id, ?_, ?_⟩
      · rw [buildIndices]
        unfold insertNode
        rw [if_pos hlook]
      · rw [List.count_append]
        have h1 : 0 < (acc.by_ref_id.map Prod.fst).count n.ref_id :=
          List.count_pos_iff.mpr hmem
        have h2 : 0 < (List.map ContainerNode.ref_id (n :: rest)).count n.ref_id := by
          apply List.count_pos_iff.mpr
          simp
        omega
    · have hlook : ¬ (acc.by_ref_id.lookup n.ref_id).isSome = true := by
        intro hs
        exact hmem (lookup_isSome_iff.mp hs)
      rw [buildIndices, insertNode_ok_of_fresh acc n hlook]
      have hmapeq : List.map Prod.fst (acc.by_ref_id ++ [(n.ref_id, n)])
            ++ List.map ContainerNode.ref_id rest
          = acc.by_ref_id.map Prod.fst
            ++ List.map ContainerNode.ref_id (n :: rest) := by
        simp
      have hnd2 : (List.map Prod.fst (acc.by_ref_id ++ [(n.ref_id, n)])).Nodup := by
        simp only [List.map_append, List.map_cons, List.map_nil]
        rw [List.nodup_append]
        refine ⟨hacc, List.nodup_singleton _, ?_⟩
        intro a ha hb
        simp at hb
        subst hb
        exact hmem ha
      obtain ⟨r, herr, hcount⟩ := ih
        ⟨acc.by_ref_id ++ [(n.ref_id, n)],
          match n.content_id with
          | none => acc.by_content_id
          | some c =>
              if (acc.by_content_id.lookup c).isSome then acc.by_content_id
              else acc.by_content_id ++ [(c, n)]⟩
        (by
          show ¬ (List.map Prod.fst (acc.by_ref_id ++ [(n.ref_id, n)])
              ++ List.map ContainerNode.ref_id rest).Nodup
          rw [hmapeq]; exact h)
        hnd2
      refine ⟨r, herr, ?_⟩
      have hcount2 : 2 ≤ (List.map Prod.fst (acc.by_ref_id ++ [(n.ref_id, n)])
          ++ List.map ContainerNode.ref_id rest).count r := hcount
      rw [hmapeq] at hcount2
      exact hcount2

/-- Characterization of the `by_content_id` index built by the parser: a
content id resolves to what the accumulator already held, else to the first
node in the remaining document-order list carrying that content id (first
occurrence wins). -/
lemma buildIndices_content : ∀ (l : List ContainerNode) (acc idx : Indices),
    buildIndices acc l = Except.ok idx →
    ∀ c, idx.by_content_id.lookup c =
      match acc.by_content_id.lookup c with
      | some v => some v
      | none => l.find? (fun n => n.content_id == some c) := by
  intro l
  induction l with
  | nil =>
    intro acc idx h c
    rw [buildIndices] at h
    cases h
    cases hl : acc.by_content_id.lookup c <;> simp [List.find?]
  | cons n rest ih =>
    intro acc idx h c
    rw [buildIndices] at h
    cases hins : insertNode acc n with
    | error e => rw [hins] at h; exact absurd h (by simp)
    | ok acc2 =>
      rw [hins] at h
      simp only at h
      have hlook : ¬ (acc.by_ref_id.lookup n.ref_id).isSome = true := by
        intro hs
        unfold insertNode at hins
        rw [if_pos hs] at hins
        exact Except.noConfusion hins
      have hacc2 := insertNode_ok_of_fresh acc n hlook
      rw [hins] at hacc2
      injection hacc2 with hacc2
      subst hacc2
      have hrec := ih _ idx h c
      rw [hrec]
      cases hn : n.content_id with
      | none =>
        show (match acc.by_content_id.lookup c with
            | some v => some v
            | none => rest.find? (fun x => x.content_id == some c))
          = (match acc.by_content_id.lookup c with
            | some v => some v
            | none => (n :: rest).find? (fun x => x.content_id == some c))
        have hpn : (n.content_id == some c) = false := by
          rw [hn]; rfl
        have hfind : (n :: rest).find? (fun x => x.content_id == some c)
            = rest.find? (fun x => x.content_id == some c) := by
          simp [List.find?_cons, hpn]
        rw [hfind]
      | some cn =>
        show (match (if (acc.by_content_id.lookup cn).isSome = true
              then acc.by_content_id
              else acc.by_content_id ++ [(cn, n)]).lookup c with
            | some v => some v
            | none => rest.find? (fun x => x.content_id == some c))
          = (match acc.by_content_id.lookup c with
            | some v => some v
            | none => (n :: rest).find? (fun x => x.content_id == some c))
        by_cases hp : (acc.by_content_id.lookup cn).isSome = true
        · rw [if_pos hp]
          by_cases hc : c = cn
          · subst hc
            obtain ⟨v, hv⟩ := Option.isSome_iff_exists.mp hp
            rw [hv]
          · have hpn : (n.content_id == some c) = false := by
              rw [hn]
              simp
              exact fun hcc => hc hcc.symm
            have hfind : (n :: rest).find? (fun x => x.content_id == some c)
                = rest.find? (fun x => x.content_id == some c) := by
              simp [List.find?_cons, hpn]
            rw [hfind]
        · rw [if_neg hp, lookup_append]
          by_cases hc : c = cn
          · subst hc
            have hnone : acc.by_content_id.lookup c = none := by
              cases hl : acc.by_content_id.lookup c with
              | none => rfl
              | some v => exact absurd (by rw [hl]; rfl) hp
            rw [hnone]
            have hsingle : ([(c, n)] : List (String × ContainerNode)).lookup c
                = some n := by
              simp [List.lookup]
            rw [hsingle]
            have hpn : (n.content_id == some c) = true := by
              rw [hn]; simp
            have hfind : (n :: rest).find? (fun x => x.content_id == some c)
                = some n := by
              simp [List.find?_cons, hpn]
            rw [hfind]
          · have hsingle : ([(cn, n)] : List (String × ContainerNode)).lookup c
                = none := by
              rw [List.lookup]
              have hb : (c == cn) = false := by
                simp
                exact hc
              rw [hb]
              rfl
            rw [hsingle]
            have hpn : (n.content_id == some c) = false := by
              rw [hn]
              simp
              exact fun hcc => hc hcc.symm
            have hfind : (n :: rest).find? (fun x => x.content_id == some c)
                = rest.find? (fun x => x.content_id == some c) := by
              simp [List.find?_cons, hpn]
            rw [hfind]
            cases hl : acc.by_content_id.lookup c <;> rfl

/-- **C3.** A manifest in which some `ref_id` occurs on two distinct
structural nodes makes the parser fail fatally with a
`StructuralCorruption` error carrying an offending `ref_id` (one that
really occurs at least twice in document order); the parser never returns
a `ContainerStructure` for such a manifest, so no index entry is silently
overwritten. -/
theorem parseContainer_dup_ref (root : ContainerItem)
    (h : ¬ (refIds root).Nodup) :
    ∃ r, parseContainer root = Except.error (ParseError.structuralCorruption r)
      ∧ 2 ≤ (refIds root).count r
      ∧ ∀ s, parseContainer root ≠ Except.ok s := by
  obtain ⟨r, herr, hcount⟩ := buildIndices_dup root.preorder ⟨[], []⟩
    (by simpa [refIds] using h)
    (by simp)
  refine ⟨r, ?_, ?_, ?_⟩
  · unfold parseContainer
    rw [herr]
  · have h2 : 2 ≤ ((⟨[], []⟩ : Indices).by_ref_id.map Prod.fst
        ++ root.preorder.map ContainerNode.ref_id).count r := hcount
    simpa [refIds] using h2
  · intro s hok
    unfold parseContainer at hok
    rw [herr] at hok
    exact Except.noConfusion hok

/-- A manifest fixture whose two sibling nodes share one `ref_id`
(Scenario D). -/
def dupRefTree : ContainerItem :=
  ContainerItem.node "3812" (some "9094") "Vorlage" "grp" none
    [ContainerItem.node "3845" (some "9151") "Test" "tst" none [],
     ContainerItem.node "3845" (some "9152") "Test Wiederholung" "tst" none []]

/-- Witness for C3: the duplicate-`ref_id` manifest parses to a
`StructuralCorruption` error and never to a structure. -/
theorem parseContainer_dup_ref_witness :
    ∃ r, parseContainer dupRefTree
        = Except.error (ParseError.structuralCorruption r)
      ∧ 2 ≤ (refIds dupRefTree).count r
      ∧ ∀ s, parseContainer dupRefTree ≠ Except.ok s :=
  parseContainer_dup_ref dupRefTree (by decide)

/-- **C7.** For every manifest whose `ref_id`s are pairwise distinct —
including manifests where one `content_id` occurs on several structural
nodes — parsing succeeds, and `by_content_id` maps each content id to the
node that occurs first in document order (first occurrence wins). -/
theorem parseContainer_content_first (root : ContainerItem)
    (h : (refIds root).Nodup) :
    ∃ s, parseContainer root = Except.ok s
      ∧ s.root_item = root
      ∧ ∀ c, s.by_content_id.lookup c
          = root.preorder.find? (fun n => n.content_id == some c) := by
  obtain ⟨idx, hok⟩ := buildIndices_ok root.preorder ⟨[], []⟩
    (by simpa [refIds] using h)
  refine ⟨⟨root, idx.by_ref_id, idx.by_content_id⟩, ?_, rfl, ?_⟩
  · unfold parseContainer
    rw [hok]
  · intro c
    exact buildIndices_content root.preorder ⟨[], []⟩ idx hok c

/-- A manifest fixture whose two sibling nodes share one `content_id` but
have distinct `ref_id`s. -/
def dupContentTree : ContainerItem :=
  ContainerItem.node "3812" (some "9094") "Vorlage" "grp" none
    [ContainerItem.node "3826" (some "9193") "Fernglas.jpg" "file" none [],
     ContainerItem.node "3827" (some "9193") "Fernglas Kopie" "file" none []]

/-- Witness for C7: the duplicate-`content_id` manifest parses successfully
and each content id resolves to its first node in document order. -/
theorem parseContainer_content_first_witness :
    ∃ s, parseContainer dupContentTree = Except.ok s
      ∧ s.root_item = dupContentTree
      ∧ ∀ c, s.by_content_id.lookup c
          = dupContentTree.preorder.find? (fun n => n.content_id == some c) :=
  parseContainer_content_first dupContentTree (by decide)

/-! ## Section Categorizer -/

/-- A rule predicate: keyword-in-title, or item-type match (spec §4.3). -/
inductive RulePred where
  | keyword (kw : String)
  | typeMatch (t : String)
deriving DecidableEq

/-- One entry of the external ordered rule table: `(predicate, section_name)`. -/
structure CategorizationRule where
  pred : RulePred
  section_name : String
deriving DecidableEq

/-- Substring test used by keyword rules. -/
def strContainsSub (s sub : String) : Bool :=
  (List.range (s.data.length + 1)).any
    (fun i => sub.data.isPrefixOf (s.data.drop i))

/-- Whether a rule predicate matches a resolved item. -/
def predMatches (p : RulePred) (it : ResolvedItem) : Bool :=
  match p with
  | RulePred.keyword kw => strContainsSub it.title kw
  | RulePred.typeMatch t => it.item_type == t

/-- Modelled from the spec: the section name assigned to one item — rules
are evaluated top-to-bottom, the first match determines the target section
name, and items matching no rule go to the default "Sonstiges" section
(`section_categorizer.py` is missing from the snapshot). -/
def assignName (rules : List CategorizationRule) (it : ResolvedItem) : String :=
  match rules.find? (fun r => predMatches r.pred it) with
  | some r => r.section_name
  | none => "Sonstiges"

/-- Coalesce consecutive entries bearing the same section name into runs
(each run keeps its name and its labeled members in order). -/
def groupRuns : List (String × ResolvedItem) →
    List (String × List (String × ResolvedItem))
  | [] => []
  | p :: rest =>
      match groupRuns rest with
      | [] => [(p.1, [p])]
      | (m, ys) :: rs =>
          if p.1 = m then (m, p :: ys) :: rs
          else (p.1, [p]) :: (m, ys) :: rs

/-- A synthesized target-side section: 0-based ordinal, human name, ordered
items. -/
structure Section where
  ordinal : Nat
  name : String
  items : List ResolvedItem
deriving DecidableEq

/-- Assign contiguous ordinals starting at `i` to a list of named buckets. -/
def withOrdinals : Nat → List (String × List ResolvedItem) → List Section
  | _, [] => []
  | i, (n, its) :: rest => ⟨i, n, its⟩ :: withOrdinals (i + 1) rest

/-- The items labeled with their assigned section names, in input order. -/
def namedItems (rules : List CategorizationRule) (items : List ResolvedItem) :
    List (String × ResolvedItem) :=
  items.map (fun it => (assignName rules it, it))

/-- The items that matched no rule (assigned "Sonstiges"), in input order. -/
def sonstItems (rules : List CategorizationRule) (items : List ResolvedItem) :
    List ResolvedItem :=
  ((namedItems rules items).filter (fun p => p.1 == "Sonstiges")).map Prod.snd

/-- The coalesced named buckets of matched items: maximal runs of
consecutive items with equal assigned names, with the "Sonstiges" runs
removed (they are collected into the single trailing section instead). -/
def mainBlocks (rules : List CategorizationRule) (items : List ResolvedItem) :
    List (String × List ResolvedItem) :=
  ((groupRuns (namedItems rules items)).filter
      (fun r => r.1 != "Sonstiges")).map (fun r => (r.1, r.2.map Prod.snd))

/-- Modelled from the spec: the Section Categorizer (§4.3,
`section_categorizer.py` missing from the snapshot) — walk items in order,
assign each its first-match section name, coalesce consecutive items with
equal names into one `Section` (a non-adjacent recurrence starts a new
instance), divert unmatched items into a single "Sonstiges" section emitted
last if non-empty, and put an always-present empty ordinal-0 "Allgemein"
section first. -/
def categorize (rules : List CategorizationRule) (items : List ResolvedItem) :
    List Section :=
  withOrdinals 0
    (("Allgemein", ([] : List ResolvedItem))
      :: (mainBlocks rules items
          ++ (if (sonstItems rules items).isEmpty then []
              else [("Sonstiges", sonstItems rules items)])))

/-- `withOrdinals` keeps the number of buckets. -/
lemma withOrdinals_length : ∀ (i : Nat) (bl : List (String × List ResolvedItem)),
    (withOrdinals i bl).length = bl.length := by
  intro i bl
  induction bl generalizing i with
  | nil => rfl
  | cons b rest ih => simp [withOrdinals, ih]

/-- `withOrdinals` assigns the contiguous ordinals `i, i+1, …`. -/
lemma withOrdinals_ordinals : ∀ (i : Nat) (bl : List (String × List ResolvedItem)),
    (withOrdinals i bl).map Section.ordinal = List.range' i bl.length := by
  intro i bl
  induction bl generalizing i with
  | nil => rfl
  | cons b rest ih =>
    rw [withOrdinals, List.map_cons, List.length_cons, List.range'_succ, ih]

/-- `withOrdinals` keeps the buckets' names in order. -/
lemma withOrdinals_names : ∀ (i : Nat) (bl : List (String × List ResolvedItem)),
    (withOrdinals i bl).map Section.name = bl.map Prod.fst := by
  intro i bl
  induction bl generalizing i with
  | nil => rfl
  | cons b rest ih =>
    rw [withOrdinals, List.map_cons, List.map_cons, ih]

/-- `withOrdinals` keeps the buckets' item lists in order. -/
lemma withOrdinals_items : ∀ (i : Nat) (bl : List (String × List ResolvedItem)),
    ((withOrdinals i bl).map Section.items).flatten
      = (bl.map Prod.snd).flatten := by
  intro i bl
  induction bl generalizing i with
  | nil => rfl
  | cons b rest ih =>
    rw [withOrdinals, List.map_cons, List.map_cons, List.flatten_cons,
      List.flatten_cons, ih]

/-- Regrouping the runs produced by `groupRuns` restores the original
labeled list. -/
lemma groupRuns_flatten : ∀ (l : List (String × ResolvedItem)),
    ((groupRuns l).map Prod.snd).flatten = l := by
  intro l
  induction l with
  | nil => rfl
  | cons p rest ih =>
    rw [groupRuns]
    cases hg : groupRuns rest with
    | nil =>
      rw [hg] at ih
      simp only [List.map_nil, List.flatten_nil] at ih
      rw [← ih]
      rfl
    | cons hd rs =>
      obtain ⟨m, ys⟩ := hd
      rw [hg] at ih
      show (((if p.1 = m then (m, p :: ys) :: rs
            else (p.1, [p]) :: (m, ys) :: rs)).map Prod.snd).flatten
          = p :: rest
      simp only [List.map_cons, List.flatten_cons] at ih
      by_cases hpm : p.1 = m
      · rw [if_pos hpm]
        simp only [List.map_cons, List.flatten_cons]
        rw [List.cons_append, ih]
      · rw [if_neg hpm]
        simp only [List.map_cons, List.flatten_cons]
        rw [List.singleton_append, ih]

/-- Every member of a run produced by `groupRuns` carries the run's name. -/
lemma groupRuns_names : ∀ (l : List (String × ResolvedItem)),
    ∀ r ∈ groupRuns l, ∀ q ∈ r.2, q.1 = r.1 := by
  intro l
  induction l with
  | nil => intro r hr; rw [groupRuns] at hr; simp at hr
  | cons p rest ih =>
    intro r hr q hq
    rw [groupRuns] at hr
    cases hg : groupRuns rest with
    | nil =>
      rw [hg] at hr
      simp only [List.mem_singleton] at hr
      subst hr
      simp only [List.mem_singleton] at hq
      subst hq
      rfl
    | cons hd rs =>
      obtain ⟨m, ys⟩ := hd
      rw [hg] at hr
      have hr2 : r ∈ (if p.1 = m then (m, p :: ys) :: rs
          else (p.1, [p]) :: (m, ys) :: rs) := hr
      by_cases hpm : p.1 = m
      · rw [if_pos hpm] at hr2
        rcases List.mem_cons.mp hr2 with hhead | htail
        · subst hhead
          rcases List.mem_cons.mp hq with hqp | hqys
          · subst hqp
            exact hpm
          · exact ih (m, ys) (by rw [hg]; exact List.mem_cons_self _ _) q hqys
        · exact ih r (by rw [hg]; exact List.mem_cons_of_mem _ htail) q hq
      · rw [if_neg hpm] at hr2
        rcases List.mem_cons.mp hr2 with hhead | htail
        · subst hhead
          simp only [List.mem_singleton] at hq
          subst hq
          rfl
        · exact ih r (by rw [hg]; exact htail) q hq

/-- For runs whose members all carry the run's name, filtering runs by name
and flattening equals flattening and filtering members by name. -/
lemma runs_filter_flatten (q : String → Bool) :
    ∀ (runs : List (String × List (String × ResolvedItem))),
    (∀ r ∈ runs, ∀ x ∈ r.2, x.1 = r.1) →
    ((runs.filter (fun r => q r.1)).map Prod.snd).flatten
      = ((runs.map Prod.snd).flatten).filter (fun x => q x.1) := by
  intro runs
  induction runs with
  | nil => intro _; rfl
  | cons r rs ih =>
    intro hh
    have hr := hh r (List.mem_cons_self r rs)
    have hrs : ∀ r2 ∈ rs, ∀ x ∈ r2.2, x.1 = r2.1 :=
      fun r2 hr2 => hh r2 (List.mem_cons_of_mem _ hr2)
    rw [List.filter_cons]
    simp only [List.map_cons, List.flatten_cons, List.filter_append]
    by_cases hq : q r.1 = true
    · rw [if_pos hq]
      simp only [List.map_cons, List.flatten_cons]
      rw [ih hrs]
      congr 1
      symm
      rw [List.filter_eq_self]
      intro x hx
      rw [hr x hx]
      exact hq
    · rw [if_neg hq]
      rw [ih hrs]
      have hnil : r.2.filter (fun x => q x.1) = [] := by
        rw [List.filter_eq_nil_iff]
        intro x hx
        rw [hr x hx]
        simpa using hq
      rw [hnil, List.nil_append]

/-- Complement filters: keeping the "Sonstiges"-labeled pairs is the
complement of dropping them. -/
lemma filter_sonst_compl (l : List (String × ResolvedItem)) :
    l.filter (fun a => !(a.1 != "Sonstiges"))
      = l.filter (fun p => p.1 == "Sonstiges") := by
  apply List.filter_congr
  intro a _
  simp [bne]

/-- The flattened main blocks are exactly the non-"Sonstiges" labeled items
in input order. -/
lemma mainBlocks_flatten (rules : List CategorizationRule)
    (items : List ResolvedItem) :
    ((mainBlocks rules items).map Prod.snd).flatten
      = ((namedItems rules items).filter
          (fun x => x.1 != "Sonstiges")).map Prod.snd := by
  unfold mainBlocks
  rw [List.map_map]
  have hfun : (Prod.snd ∘ fun r : String × List (String × ResolvedItem) =>
        (r.1, r.2.map Prod.snd))
      = (List.map Prod.snd ∘ Prod.snd) := rfl
  rw [hfun, ← List.map_map, ← List.map_flatten,
    runs_filter_flatten (fun s => s != "Sonstiges") _ (groupRuns_names _),
    groupRuns_flatten]

/-- Dropping the labels gives back the input items. -/
lemma namedItems_snd (rules : List CategorizationRule)
    (items : List ResolvedItem) :
    (namedItems rules items).map Prod.snd = items := by
  unfold namedItems
  rw [List.map_map]
  exact List.map_id items

/-- **C2.** For every rule table and every ordered item sequence, the
Section Categorizer's output has contiguous ordinals starting at 0, its
first section (ordinal 0) is the always-present empty "Allgemein" section
preceding all synthesized sections, and the sections' item lists together
are a permutation of the input items — every resolved item lands in exactly
one section (membership is exhaustive and non-overlapping). -/
theorem categorize_invariants (rules : List CategorizationRule)
    (items : List ResolvedItem) :
    ((categorize rules items).map Section.ordinal
        = List.range (categorize rules items).length)
    ∧ (categorize rules items).head? = some ⟨0, "Allgemein", []⟩
    ∧ List.Perm (((categorize rules items).map Section.items).flatten) items := by
  refine ⟨?_, rfl, ?_⟩
  · unfold categorize
    rw [withOrdinals_ordinals, withOrdinals_length, List.range_eq_range']
  · unfold categorize
    rw [withOrdinals_items]
    simp only [List.map_cons, List.flatten_cons, List.map_append,
      List.flatten_append, List.nil_append]
    rw [mainBlocks_flatten]
    have hperm := List.filter_append_perm
      (fun x : String × ResolvedItem => x.1 != "Sonstiges")
      (namedItems rules items)
    rw [filter_sonst_compl] at hperm
    by_cases hse : (sonstItems rules items).isEmpty = true
    · rw [if_pos hse]
      simp only [List.map_nil, List.flatten_nil, List.append_nil]
      have hqnil : (namedItems rules items).filter
          (fun p => p.1 == "Sonstiges") = [] := by
        have h1 : sonstItems rules items = [] := List.isEmpty_iff.mp hse
        unfold sonstItems at h1
        exact List.map_eq_nil_iff.mp h1
      rw [hqnil, List.append_nil] at hperm
      have hmapped := hperm.map Prod.snd
      rw [namedItems_snd] at hmapped
      exact hmapped
    · rw [if_neg hse]
      simp only [List.map_cons, List.map_nil, List.flatten_cons,
        List.flatten_nil, List.append_nil]
      unfold sonstItems
      rw [← List.map_append]
      have hmapped := hperm.map Prod.snd
      rw [namedItems_snd] at hmapped
      exact hmapped

/-- Adjacent runs produced by `groupRuns` always carry different names:
coalescing of consecutive equal names is maximal, so a recurring name can
only appear in a later, non-adjacent run. -/
lemma groupRuns_chain : ∀ (l : List (String × ResolvedItem)),
    List.Chain' (fun r s : String × List (String × ResolvedItem) =>
      r.1 ≠ s.1) (groupRuns l) := by
  intro l
  induction l with
  | nil => simp [groupRuns]
  | cons p rest ih =>
    rw [groupRuns]
    cases hg : groupRuns rest with
    | nil => exact List.chain'_singleton _
    | cons hd rs =>
      obtain ⟨m, ys⟩ := hd
      rw [hg] at ih
      show List.Chain' _ (if p.1 = m then (m, p :: ys) :: rs
          else (p.1, [p]) :: (m, ys) :: rs)
      by_cases hpm : p.1 = m
      · rw [if_pos hpm]
        cases rs with
        | nil => exact List.chain'_singleton _
        | cons b rs2 =>
          rw [List.chain'_cons]
          rw [List.chain'_cons] at ih
          exact ⟨ih.1, ih.2⟩
      · rw [if_neg hpm]
        rw [List.chain'_cons]
        exact ⟨hpm, ih⟩

/-- Items of spec Scenario C: two tests around one file. -/
def itmA : ResolvedItem :=
  ⟨"A", none, "Selbsttest A", "test", ResolutionSource.containerLookup, []⟩

/-- Scenario C middle item. -/
def itmB : ResolvedItem :=
  ⟨"B", none, "Datei B", "file", ResolutionSource.containerLookup, []⟩

/-- Scenario C third item, same type as the first but not adjacent to it. -/
def itmC : ResolvedItem :=
  ⟨"C", none, "Selbsttest C", "test", ResolutionSource.containerLookup, []⟩

/-- An item matching no Scenario C rule. -/
def itmD : ResolvedItem :=
  ⟨"D", none, "Link D", "url", ResolutionSource.fallbackStub, []⟩

/-- The two-rule table of spec Scenario C. -/
def scenRules : List CategorizationRule :=
  [⟨RulePred.typeMatch "test", "Wiederholung"⟩,
   ⟨RulePred.typeMatch "file", "Wissensinhalt"⟩]

/-- **C4.** The categorizer assigns each item the section name of the first
matching rule (top-to-bottom), collects items matching no rule into a
"Sonstiges" section emitted last when non-empty, coalesces consecutive
equal-named items maximally (adjacent runs always differ in name), and a
non-adjacently recurring name starts a fresh Section: on Scenario C the two
tests A and C land in two separate "Wiederholung" sections around the
"Wissensinhalt" section holding B. -/
theorem categorizer_first_match_runs :
    (categorize scenRules [itmA, itmB, itmC]
        = [⟨0, "Allgemein", []⟩, ⟨1, "Wiederholung", [itmA]⟩,
           ⟨2, "Wissensinhalt", [itmB]⟩, ⟨3, "Wiederholung", [itmC]⟩])
    ∧ (∀ (rules1 : List CategorizationRule) (r : CategorizationRule)
        (rules2 : List CategorizationRule) (it : ResolvedItem),
        (∀ r1 ∈ rules1, predMatches r1.pred it = false) →
        predMatches r.pred it = true →
        assignName (rules1 ++ r :: rules2) it = r.section_name)
    ∧ (∀ (rules : List CategorizationRule) (items : List ResolvedItem)
        (it : ResolvedItem), it ∈ items →
        (∀ r ∈ rules, predMatches r.pred it = false) →
        ((categorize rules items).getLast?).map Section.name
          = some "Sonstiges")
    ∧ (∀ l, List.Chain' (fun r s : String × List (String × ResolvedItem) =>
        r.1 ≠ s.1) (groupRuns l)) := by
  refine ⟨by decide, ?_, ?_, groupRuns_chain⟩
  · intro rules1 r rules2 it h1 h2
    unfold assignName
    rw [List.find?_append]
    have hnone : rules1.find? (fun rl => predMatches rl.pred it) = none :=
      List.find?_eq_none.mpr (by
        intro x hx
        rw [h1 x hx]
        exact Bool.false_ne_true)
    rw [hnone]
    have hhead : (r :: rules2).find? (fun rl => predMatches rl.pred it)
        = some r := by
      rw [List.find?_cons]
      simp [h2]
    rw [hhead]
    rfl
  · intro rules items it hmem hnone
    have hassign : assignName rules it = "Sonstiges" := by
      unfold assignName
      rw [List.find?_eq_none.mpr (by
        intro x hx
        rw [hnone x hx]
        exact Bool.false_ne_true)]
    have hpair : ("Sonstiges", it) ∈ namedItems rules items := by
      unfold namedItems
      rw [← hassign]
      exact List.mem_map_of_mem _ hmem
    have hsne : sonstItems rules items ≠ [] := by
      unfold sonstItems
      intro hnil
      have hfe : (namedItems rules items).filter
          (fun p => p.1 == "Sonstiges") = [] := List.map_eq_nil_iff.mp hnil
      have : ("Sonstiges", it) ∈ (namedItems rules items).filter
          (fun p => p.1 == "Sonstiges") :=
        List.mem_filter.mpr ⟨hpair, by simp⟩
      rw [hfe] at this
      exact List.not_mem_nil _ this
    have hie : ¬ (sonstItems rules items).isEmpty = true := by
      intro h
      exact hsne (List.isEmpty_iff.mp h)
    unfold categorize
    rw [if_neg hie]
    rw [← List.getLast?_map, withOrdinals_names]
    rw [List.map_cons, List.map_append]
    rw [← List.cons_append]
    simp only [List.map_cons, List.map_nil]
    rw [List.getLast?_concat]

/-- Witness for C4: the second rule wins for a test item once a
non-matching rule precedes it, and appending an unmatched item makes
"Sonstiges" the last emitted section. -/
theorem categorizer_first_match_runs_witness :
    assignName ([⟨RulePred.typeMatch "file", "Wissensinhalt"⟩]
        ++ (⟨RulePred.typeMatch "test", "Wiederholung"⟩ : CategorizationRule)
          :: []) itmA
      = (⟨RulePred.typeMatch "test",
          "Wiederholung"⟩ : CategorizationRule).section_name
    ∧ ((categorize scenRules [itmA, itmB, itmC, itmD]).getLast?).map
        Section.name = some "Sonstiges" :=
  ⟨categorizer_first_match_runs.2.1
      [⟨RulePred.typeMatch "file", "Wissensinhalt"⟩]
      ⟨RulePred.typeMatch "test", "Wiederholung"⟩ [] itmA
      (by decide) (by decide),
   categorizer_first_match_runs.2.2.1 scenRules [itmA, itmB, itmC, itmD]
      itmD (by decide) (by decide)⟩
